import Mathlib

/-!
Verification of the distributed-chess BFT consensus core.

The development shallowly embeds the Rust sources of the node
(`src/core/src/chess.rs`, `src/core/src/consensus/types.rs`,
`src/core/src/consensus/hotstuff.rs`, `src/core/src/network/p2p.rs`,
`src/core/src/main.rs`).  Machine integers are modelled as `Nat`/`Int`
with explicit `% 2^w` wrapping where the Rust code can wrap (release
semantics), fallible code returns `Except`, and a Rust panic
(`unwrap`/`expect`/out-of-bounds indexing) is modelled as `Option.none`
of the surrounding computation.  External crates (keccak256, sha256,
secp256k1, serde serialization of the protobuf-generated game types)
are opaque parameters collected in an `Env` structure; everything the
repository itself computes is embedded concretely and executably.
-/

namespace DistributedChess

/-! ### Machine-integer helpers -/

/-- Rust `n as i32` applied to a `u32` value: two's-complement reinterpretation. -/
def u32toi32 (n : Nat) : Int :=
  if n % 4294967296 < 2147483648 then ((n % 4294967296 : Nat) : Int)
  else ((n % 4294967296 : Nat) : Int) - 4294967296

/-- Wrap an integer into the `i32` range (Rust release-mode overflow semantics). -/
def wrapI32 (v : Int) : Int := (v + 2147483648) % 4294967296 - 2147483648

/-- Rust `v as u32` applied to an `i32` value: two's-complement reinterpretation. -/
def i32toU32 (v : Int) : Nat := (v % 4294967296).toNat

/-- Rust `u64` subtraction `a - b` with release-mode wrapping (two's complement). -/
def u64sub (a b : Nat) : Nat := (18446744073709551616 + a - b) % 18446744073709551616

/-- Rust `t as u64` applied to an `i64` value. -/
def i64toU64 (t : Int) : Nat := (t % 18446744073709551616).toNat

/-! ### Errors (`src/core/src/errors.rs`) -/

/-- `AppError` from `errors.rs`. -/
inductive AppError
  | startGameError (s : String)
  | internalGameError (s : String)
  | invalidTransactionError (s : String)
  | blockValidationError (s : String)
  | noLeaderError
  | invalidQcError
  | grpcServerError (s : String)
  | peerError (s : String)
  | swarmError (s : String)
  | unknownError
deriving DecidableEq, Repr

/-- The `thiserror`-derived `Display` implementation of `AppError`
(the `#[error("...")]` format strings in `errors.rs`). -/
def AppError.toMessage : AppError → String
  | .startGameError s => "Failed to start the game: " ++ s
  | .internalGameError s => "Internal game error: " ++ s
  | .invalidTransactionError s => "Invalid transaction: " ++ s
  | .blockValidationError s => "Block validation failed: " ++ s
  | .noLeaderError => "No leader found"
  | .invalidQcError => "Quorum certificate invalid"
  | .grpcServerError s => "gRPC server error: " ++ s
  | .peerError s => "Peer error: " ++ s
  | .swarmError s => "Swarm error: " ++ s
  | .unknownError => "Unknown error"

/-! ### Chess data model (`src/core/src/chess.rs` and the generated `pb::game` types)

The protobuf-generated types carry: `Piece { color: i32, kind: String }`,
`Cell { piece: Option<Piece> }`, `Row { cells: Vec<Cell> }`,
`Board { rows: Vec<Row> }`, `Position { x: u32, y: u32 }`,
`Location { coords: Vec<u32>, piece: Option<Piece> }` (always built with
`coords = [x, y]` by `Location::from_pos` / `Location::new`, so it is
embedded with two named coordinates), and `GameState` below.
`Color::White as i32 = 0`, `Color::Black as i32 = 1`. -/

inductive Color
  | white
  | black
deriving DecidableEq, Repr

def Color.toI32 : Color → Int
  | .white => 0
  | .black => 1

/-- `Color::from_i32` of the prost-generated enum. -/
def Color.fromI32 (t : Int) : Option Color :=
  if t = 0 then some .white else if t = 1 then some .black else none

structure Piece where
  color : Int
  kind : String
deriving DecidableEq, Repr

structure Cell where
  piece : Option Piece
deriving DecidableEq, Repr

structure Row where
  cells : List Cell
deriving DecidableEq, Repr

structure Board where
  rows : List Row
deriving DecidableEq, Repr

structure Position where
  x : Nat
  y : Nat
deriving DecidableEq, Repr

structure Location where
  x : Nat
  y : Nat
  piece : Option Piece
deriving DecidableEq, Repr

def backRankKinds : List String := ["R", "N", "B", "Q", "K", "B", "N", "R"]

/-- The initial board built by `Board::new`: white back rank on row 0,
white pawns on row 1, empty rows 2-5, black pawns on row 6, black back
rank on row 7 (the value the imperative constructor produces). -/
def Board.new : Board :=
  ⟨[⟨backRankKinds.map fun k => ⟨some ⟨0, k⟩⟩⟩,
    ⟨List.replicate 8 ⟨some ⟨0, "P"⟩⟩⟩,
    ⟨List.replicate 8 ⟨none⟩⟩,
    ⟨List.replicate 8 ⟨none⟩⟩,
    ⟨List.replicate 8 ⟨none⟩⟩,
    ⟨List.replicate 8 ⟨none⟩⟩,
    ⟨List.replicate 8 ⟨some ⟨1, "P"⟩⟩⟩,
    ⟨backRankKinds.map fun k => ⟨some ⟨1, k⟩⟩⟩]⟩

/-- `Board::get_piece_at` (indexing panics, modelled as `none`, when the
location is off the board); the `Location` argument is reduced to its
coordinates, which is all the Rust function reads. -/
def Board.get_piece_at (b : Board) (x y : Nat) : Option (Option Piece) :=
  match b.rows.get? x with
  | none => none
  | some r =>
    match r.cells.get? y with
    | none => none
    | some c => some c.piece

/-- `Board::is_empty`. -/
def Board.is_empty (b : Board) (x y : Nat) : Option Bool :=
  (b.get_piece_at x y).map Option.isNone

/-- `Board::has_enemy_piece`. -/
def Board.has_enemy_piece (b : Board) (x y : Nat) (color : Int) : Option Bool :=
  (b.get_piece_at x y).map fun pc =>
    match pc with
    | some p => decide (p.color ≠ color)
    | none => false

/-- `Board::is_empty_or_enemy` (`is_empty || has_enemy_piece` on the same cell). -/
def Board.is_empty_or_enemy (b : Board) (x y : Nat) (color : Int) : Option Bool :=
  (b.get_piece_at x y).map fun pc =>
    match pc with
    | none => true
    | some p => decide (p.color ≠ color)

/-- The `while` loop shared by `validate_rook_move` and
`validate_bishop_move`: walk from the square after `from` towards
`(tx, ty)` in steps `(sx, sy)`, requiring every visited square to be
empty.  The loop needs at most `|dx| + |dy|` iterations for the aligned
calls the two validators make, which bounds the structural fuel; the
fuel-exhausted branch is unreachable for those calls. -/
def walk_path (b : Board) (fuel : Nat) (x y tx ty sx sy : Int) : Option Bool :=
  if x = tx ∧ y = ty then some true
  else
    match fuel with
    | 0 => some true
    | f + 1 =>
      match b.is_empty (i32toU32 x) (i32toU32 y) with
      | none => none
      | some false => some false
      | some true => walk_path b f (x + sx) (y + sy) tx ty sx sy

/-- `Piece::validate_pawn_move`. -/
def Piece.validate_pawn_move (p : Piece) (fromL toL : Location) (dx dy : Int) (b : Board) :
    Option Bool :=
  let direction : Int := if p.color = 0 then 1 else -1
  let initial_row : Int := if p.color = 0 then 1 else 6
  if dy = 0 ∧ dx = direction then b.is_empty toL.x toL.y
  else if dy = 0 ∧ dx = 2 * direction ∧ u32toi32 fromL.x = initial_row then
    let midx : Nat := i32toU32 (wrapI32 (u32toi32 fromL.x + direction))
    match b.is_empty toL.x toL.y with
    | none => none
    | some false => some false
    | some true => b.is_empty midx fromL.y
  else if dy.natAbs = 1 ∧ dx = direction then b.has_enemy_piece toL.x toL.y p.color
  else some false

/-- `Piece::validate_rook_move`. -/
def Piece.validate_rook_move (p : Piece) (fromL toL : Location) (dx dy : Int) (b : Board) :
    Option Bool :=
  if dx ≠ 0 ∧ dy ≠ 0 then some false
  else
    match walk_path b (dx.natAbs + dy.natAbs) (u32toi32 fromL.x + dx.sign)
        (u32toi32 fromL.y + dy.sign) (u32toi32 toL.x) (u32toi32 toL.y) dx.sign dy.sign with
    | none => none
    | some false => some false
    | some true => b.is_empty_or_enemy toL.x toL.y p.color

/-- `Piece::validate_knight_move`. -/
def Piece.validate_knight_move (p : Piece) (toL : Location) (dx dy : Int) (b : Board) :
    Option Bool :=
  if (dx.natAbs = 2 ∧ dy.natAbs = 1) ∨ (dx.natAbs = 1 ∧ dy.natAbs = 2) then
    b.is_empty_or_enemy toL.x toL.y p.color
  else some false

/-- `Piece::validate_bishop_move`. -/
def Piece.validate_bishop_move (p : Piece) (fromL toL : Location) (dx dy : Int) (b : Board) :
    Option Bool :=
  if dx.natAbs ≠ dy.natAbs then some false
  else
    match walk_path b dx.natAbs (u32toi32 fromL.x + dx.sign) (u32toi32 fromL.y + dy.sign)
        (u32toi32 toL.x) (u32toi32 toL.y) dx.sign dy.sign with
    | none => none
    | some false => some false
    | some true => b.is_empty_or_enemy toL.x toL.y p.color

/-- `Piece::validate_queen_move` (`rook || bishop`, short-circuiting). -/
def Piece.validate_queen_move (p : Piece) (fromL toL : Location) (dx dy : Int) (b : Board) :
    Option Bool :=
  match p.validate_rook_move fromL toL dx dy b with
  | none => none
  | some true => some true
  | some false => p.validate_bishop_move fromL toL dx dy b

/-- `Piece::validate_king_move`. -/
def Piece.validate_king_move (p : Piece) (toL : Location) (dx dy : Int) (b : Board) :
    Option Bool :=
  if dx.natAbs ≤ 1 ∧ dy.natAbs ≤ 1 then b.is_empty_or_enemy toL.x toL.y p.color
  else some false

/-- `Piece::can_move_to`. -/
def Piece.can_move_to (p : Piece) (fromL toL : Location) (b : Board) : Option Bool :=
  let dx := wrapI32 (u32toi32 toL.x - u32toi32 fromL.x)
  let dy := wrapI32 (u32toi32 toL.y - u32toi32 fromL.y)
  match p.kind with
  | "P" => p.validate_pawn_move fromL toL dx dy b
  | "R" => p.validate_rook_move fromL toL dx dy b
  | "N" => p.validate_knight_move toL dx dy b
  | "B" => p.validate_bishop_move fromL toL dx dy b
  | "Q" => p.validate_queen_move fromL toL dx dy b
  | "K" => p.validate_king_move toL dx dy b
  | _ => some false

/-- The generated `GameState` (fields used by the embedded code paths;
the `history` field read by `hotstuff.rs` has no definition anywhere
under `src/` and, per the spec, does not enter the block hash, so it is
not materialised). -/
structure GameState where
  white_player : String
  black_player : String
  turn : Int
  board : Option Board
deriving DecidableEq, Repr

/-- `GameState::new`. -/
def GameState.new (w b : String) : GameState := ⟨w, b, 0, some Board.new⟩

/-- `GameState::validate_move_inner` (`Color::from_i32(..).expect` is a
panic, modelled as `none`). -/
def GameState.validate_move_inner (g : GameState) (fromL toL : Location) :
    Option (Except AppError Unit) :=
  match fromL.piece with
  | none => some (.error (.internalGameError "No piece at the source location"))
  | some piece =>
    match Color.fromI32 g.turn with
    | none => none
    | some c =>
      if piece.color ≠ c.toI32 then
        some (.error (.internalGameError "It's not this piece's turn to move"))
      else
        match g.board with
        | none => none
        | some b =>
          match piece.can_move_to fromL toL b with
          | none => none
          | some true => some (.ok ())
          | some false => some (.error (.internalGameError "Invalid move for the piece"))

/-- `GameState::validate_move` (builds the two `Location`s, panicking —
`none` — when `board` is `None` or a coordinate is off the board). -/
def GameState.validate_move (g : GameState) (fromP toP : Position) :
    Option (Except AppError Unit) :=
  match g.board with
  | none => none
  | some b =>
    match b.get_piece_at fromP.x fromP.y, b.get_piece_at toP.x toP.y with
    | some fp, some tp => g.validate_move_inner ⟨fromP.x, fromP.y, fp⟩ ⟨toP.x, toP.y, tp⟩
    | _, _ => none

/-- Write a cell of the board (the two index assignments in `apply_move`). -/
def Board.set_piece (b : Board) (x y : Nat) (p : Option Piece) : Board :=
  match b.rows.get? x with
  | none => b
  | some r => ⟨b.rows.set x ⟨r.cells.set y ⟨p⟩⟩⟩

/-- `GameState::apply_move`: validate, re-read both cells, reject moving
onto an own piece, then write destination before clearing the source and
flip `turn := (turn + 1) % 2` (Rust `%` is truncated remainder). -/
def GameState.apply_move (g : GameState) (fromP toP : Position) :
    Option (Except AppError GameState) :=
  match g.validate_move fromP toP with
  | none => none
  | some (.error e) => some (.error e)
  | some (.ok _) =>
    match g.board with
    | none => none
    | some b =>
      match b.get_piece_at fromP.x fromP.y, b.get_piece_at toP.x toP.y with
      | some fp, some tp =>
        let moved : GameState :=
          { g with
            board := some ((b.set_piece toP.x toP.y fp).set_piece fromP.x fromP.y none),
            turn := (g.turn + 1).tmod 2 }
        match tp with
        | some q =>
          if q.color = g.turn then
            some (.error (.internalGameError "You cannot move onto your own piece"))
          else some (.ok moved)
        | none => some (.ok moved)
      | _, _ => none

/-! ### Consensus data model (`src/core/src/consensus/types.rs`, generated `pb::query`) -/

/-- The generated `Transaction` (fields used by the embedded code:
`white_player`, `black_player`, `action: Vec<Position>`, hex `signature`,
hex `pub_key`, and the `game_state_hash: Option<String>` compared by
`approve_proposal`). -/
structure Transaction where
  white_player : String
  black_player : String
  action : List Position
  signature : String
  pub_key : String
  game_state_hash : Option String
deriving DecidableEq, Repr

/-- `QuorumCertificate` from `types.rs`; 32-byte `B256` hashes are
modelled as `Nat` (the all-zero genesis hash is `0`). -/
structure QuorumCertificate where
  block_hash : Nat
  signature : List String
deriving DecidableEq, Repr

/-- `Block` from `types.rs`.  Modelled from the spec: the `timestamp`
field (unix seconds, `i64`) that `commit_block` in `hotstuff.rs` reads
is absent from the `types.rs` revision under `src/` and is restored here
per the spec's block model; it is excluded from the hash. -/
structure Block where
  view_n : Nat
  previous_block_hash : Nat
  tx : Transaction
  timestamp : Int
  hash : Nat
  qc : Option QuorumCertificate
deriving DecidableEq, Repr

/-- `Commit` from `types.rs`. -/
structure Commit where
  decision : Bool
  block : Block
deriving DecidableEq, Repr

/-- `BlockBuilder` from `types.rs`: exactly the three fields `view_n`,
`previous_block_hash`, `tx` (the `with_history` call in `hotstuff.rs`
has no definition anywhere under `src/`; per the spec the hash covers
only these three fields, so the call is dropped). -/
structure BlockBuilder where
  view_n : Nat
  previous_block_hash : Nat
  tx : Transaction
deriving DecidableEq, Repr

/-- The external primitives the node links against, kept opaque:
keccak256 and serde_json canonical serialization (`alloy_primitives`,
`serde_json`), sha256 (`sha2`), and secp256k1 parsing/verification
(`libsecp256k1`), plus the `Display` strings of external errors.
`keccakBuilder` is `keccak256(serde_json::to_string(&builder))` as a
function of the builder's three fields; `gameStateHash` is
`keccak256(serde_json::to_string(&game)).to_string()`. -/
structure Env where
  keccakBuilder : Nat → Nat → Transaction → Nat
  gameStateHash : GameState → String
  sha256 : String → List Nat
  sigScalarsOk : List Nat → Bool
  pubkeyOk : List Nat → Bool
  verify : List Nat → List Nat → List Nat → Bool
  hexErrMsg : String → String
  sigErrMsg : List Nat → String
  keyErrMsg : List Nat → String

/-- The hash `BlockBuilder::build` stores: keccak256 of the canonical
JSON of `{view_n, previous_block_hash, tx}` (the serde-derived
serialization of the three-field builder struct). -/
def BlockBuilder.hashOf (env : Env) (bb : BlockBuilder) : Nat :=
  env.keccakBuilder bb.view_n bb.previous_block_hash bb.tx

/-- `BlockBuilder::build`.  Modelled from the spec: the built block is
stamped with the caller's clock `now` as its advisory `timestamp`
(types.rs under `src/` carries no timestamp); `qc` is `None` and the
hash is `hashOf`, which reads neither. -/
def BlockBuilder.build (env : Env) (bb : BlockBuilder) (now : Int) : Block :=
  ⟨bb.view_n, bb.previous_block_hash, bb.tx, now, bb.hashOf env, none⟩

/-! ### Node state (`src/core/src/main.rs`)

`App` plus the globals it reaches (`CONNECTED_PEERS`); hash maps and
hash sets are embedded as association lists / duplicate-free lists in
internal iteration order.  The write-only `CLOCK` global is not
materialised. -/

structure AppState where
  db : List (String × GameState)
  state_votes : List (Nat × List String)
  latest_block_hash : Nat
  latest_timestamp : Nat
  view_n : Nat
  connected_peers : List String
  local_peer_id : String
deriving DecidableEq, Repr

def PEERS : Nat := 4

def VIEW_N_ROT_INTERVAL : Nat := 10

def lookup_game : List (String × GameState) → String → Option GameState
  | [], _ => none
  | (k, v) :: rest, key => if k = key then some v else lookup_game rest key

/-- Update the entry a successful `get_mut` mutated (the commit path
only ever rewrites an existing key). -/
def insert_game : List (String × GameState) → String → GameState → List (String × GameState)
  | [], key, g => [(key, g)]
  | (k, v) :: rest, key, g =>
    if k = key then (k, g) :: rest else (k, v) :: insert_game rest key g

def lookup_votes : List (Nat × List String) → Nat → Option (List String)
  | [], _ => none
  | (h, vs) :: rest, key => if h = key then some vs else lookup_votes rest key

/-- The match key `"{white}:{black}"`. -/
def match_key (w b : String) : String := w ++ ":" ++ b

/-- `HashSet::intersection(..).count()` between the recorded votes and
`HashSet::from_iter(qc.signature)`: members of `votes` that occur in
`sig` (votes, coming from a `HashSet`, are duplicate-free). -/
def inter_count (votes sig : List String) : Nat :=
  (votes.filter fun p => sig.contains p).length

/-- `App::get_current_leader`: `CONNECTED_PEERS[view_n % PEERS]`. -/
def get_current_leader (st : AppState) : Except AppError String :=
  match st.connected_peers.get? (st.view_n % PEERS) with
  | some p => .ok p
  | none => .error .noLeaderError

/-- `App::is_valid_qc`: the recorded votes for `qc.block_hash` must
intersect `qc.signature` in more than `(2 * PEERS) / 3` members. -/
def is_valid_qc (st : AppState) (qc : QuorumCertificate) : Except AppError Unit :=
  match lookup_votes st.state_votes qc.block_hash with
  | some res =>
    if inter_count res qc.signature > (2 * PEERS) / 3 then .ok ()
    else .error .invalidQcError
  | none => .error .invalidQcError

/-! ### Canonical signing message (`validate_signature` in `hotstuff.rs`) -/

def hexChar (n : Nat) : String :=
  String.singleton (if n < 10 then Char.ofNat (48 + n) else Char.ofNat (87 + n))

/-- serde_json string escaping: quote, backslash, and control characters
(`\b \t \n \f \r`, otherwise `\u00xx` with lowercase hex). -/
def escChar (c : Char) : String :=
  if c.toNat = 34 then "\\\""
  else if c.toNat = 92 then "\\\\"
  else if c.toNat < 32 then
    match c.toNat with
    | 8 => "\\b"
    | 9 => "\\t"
    | 10 => "\\n"
    | 12 => "\\f"
    | 13 => "\\r"
    | k => "\\u00" ++ hexChar (k / 16) ++ hexChar (k % 16)
  else String.singleton c

def jsonString (s : String) : String :=
  "\"" ++ String.join (s.data.map escChar) ++ "\""

def posJson (p : Position) : String :=
  "\x7b\"x\":" ++ toString p.x ++ ",\"y\":" ++ toString p.y ++ "\x7d"

/-- Modelled from the spec: the canonical signing message built by the
`serde_json::json!` literal in `validate_signature`, rendered with the
field order it is written in — `whitePlayer`, `blackPlayer`, `action` —
as the spec fixes (the `Cargo.toml` that selects serde_json's map
ordering is not under `src/`). -/
def canonical_msg (w b : String) (a0 a1 : Position) : String :=
  "\x7b\"whitePlayer\":" ++ jsonString w ++ ",\"blackPlayer\":" ++ jsonString b ++
    ",\"action\":[" ++ posJson a0 ++ "," ++ posJson a1 ++ "]\x7d"

/-- `hex::decode` of one hex digit. -/
def hexDigitVal (c : Char) : Option Nat :=
  if 48 ≤ c.toNat ∧ c.toNat ≤ 57 then some (c.toNat - 48)
  else if 97 ≤ c.toNat ∧ c.toNat ≤ 102 then some (c.toNat - 87)
  else if 65 ≤ c.toNat ∧ c.toNat ≤ 70 then some (c.toNat - 55)
  else none

def hexDecodeList : List Char → Option (List Nat)
  | [] => some []
  | [_] => none
  | c1 :: c2 :: rest =>
    match hexDigitVal c1, hexDigitVal c2, hexDecodeList rest with
    | some h, some l, some bs => some ((16 * h + l) :: bs)
    | _, _, _ => none

/-- `hex::decode`: bytes of a hex string, failing on odd length or a
non-hex character. -/
def hexDecode (s : String) : Option (List Nat) :=
  hexDecodeList s.data

/-- `App::validate_signature`: canonical JSON message, sha256 digest,
hex-decode of signature and public key, `Signature::parse_standard_slice`
(exactly 64 bytes plus the scalar range check) and
`PublicKey::parse_slice`, then `libsecp256k1::verify`.  Indexing
`tx.action[0] / tx.action[1]` inside the `json!` literal panics (`none`)
when the action vector is short. -/
def validate_signature (env : Env) (tx : Transaction) : Option (Except AppError Unit) :=
  match tx.action.get? 0, tx.action.get? 1 with
  | some a0, some a1 =>
    let msg := canonical_msg tx.white_player tx.black_player a0 a1
    some (match hexDecode tx.signature with
      | none => .error (.invalidTransactionError (env.hexErrMsg tx.signature))
      | some sigBytes =>
        if sigBytes.length = 64 ∧ env.sigScalarsOk sigBytes then
          match hexDecode tx.pub_key with
          | none => .error (.invalidTransactionError (env.hexErrMsg tx.pub_key))
          | some keyBytes =>
            if env.pubkeyOk keyBytes then
              if env.verify (env.sha256 msg) sigBytes keyBytes then .ok ()
              else .error (.invalidTransactionError "invalid signature")
            else .error (.invalidTransactionError (env.keyErrMsg keyBytes))
        else .error (.invalidTransactionError (env.sigErrMsg sigBytes)))
  | _, _ => none

/-- `App::is_valid_tx`: game lookup, chess validation of
`action[0] → action[1]` (indexing panics when the vector is short),
signature check, then turn authority (`pub_key` must equal the player
whose turn it is; `Color::from_i32(turn).expect` panics on other turn
values). -/
def is_valid_tx (env : Env) (st : AppState) (tx : Transaction) :
    Option (Except AppError Unit) :=
  match lookup_game st.db (match_key tx.white_player tx.black_player) with
  | none => some (.error (.invalidTransactionError "no such game"))
  | some game =>
    match tx.action.get? 0, tx.action.get? 1 with
    | some a0, some a1 =>
      match game.validate_move a0 a1 with
      | none => none
      | some (.error e) => some (.error e)
      | some (.ok _) =>
        match validate_signature env tx with
        | none => none
        | some (.error e) => some (.error e)
        | some (.ok _) =>
          match Color.fromI32 game.turn with
          | none => none
          | some c =>
            if tx.pub_key ≠ (match c with
                | .white => game.white_player
                | .black => game.black_player) then
              some (.error (.invalidTransactionError "invalud turn"))
            else some (.ok ())
    | _, _ => none

/-- `App::calculate_game_state_hash` (`db.get(..).unwrap()` panics —
`none` — when the match is absent). -/
def calculate_game_state_hash (env : Env) (st : AppState) (tx : Transaction) :
    Option String :=
  (lookup_game st.db (match_key tx.white_player tx.black_player)).map env.gameStateHash

/-- `App::commit_block`: require `qc`, validate it, look up the game
(`hotstuff.rs` rebuilds the expected block from
`{previous_block_hash, tx, view_n}` and compares it with `block.hash`
and `qc.block_hash`), snapshot the db, apply the move (restoring the
snapshot on failure), then set `latest_block_hash` and
`latest_timestamp := block.timestamp as u64`.  Panics (`none`) surface
from `action` indexing and `apply_move`; the write-only `CLOCK` update
is not modelled. -/
def commit_block (env : Env) (st : AppState) (b : Block) :
    Option (Except AppError Unit × AppState) :=
  match b.qc with
  | none => some (.error .invalidQcError, st)
  | some qc =>
    match is_valid_qc st qc with
    | .error e => some (.error e, st)
    | .ok _ =>
      let version := st.db
      match lookup_game st.db (match_key b.tx.white_player b.tx.black_player) with
      | none => some (.error (.blockValidationError "no such game"), st)
      | some g =>
        let realHash := BlockBuilder.hashOf env ⟨b.view_n, b.previous_block_hash, b.tx⟩
        if realHash ≠ b.hash ∨ qc.block_hash ≠ b.hash then
          some (.error (.blockValidationError "invalid block"), st)
        else
          match b.tx.action.get? 0, b.tx.action.get? 1 with
          | some a0, some a1 =>
            match g.apply_move a0 a1 with
            | none => none
            | some (.error e) =>
              some (.error (.invalidTransactionError e.toMessage), { st with db := version })
            | some (.ok g2) =>
              some (.ok (),
                { st with
                  db := insert_game st.db (match_key b.tx.white_player b.tx.black_player) g2,
                  latest_block_hash := b.hash,
                  latest_timestamp := i64toU64 b.timestamp })
          | _, _ => none

/-- `App::approve_proposal`: view check (`view_n as u32`), leader check
on the message source, chain-link check, hash recomputation (the
`db.get(..).unwrap()` for the game's history panics — `none` — when the
match is absent), `is_valid_tx`, and finally the
`tx.game_state_hash == Some(calculate_game_state_hash(..))` comparison. -/
def approve_proposal (env : Env) (st : AppState) (proposal : Block) (source : String) :
    Option (Except AppError Unit) :=
  if st.view_n % 4294967296 ≠ proposal.view_n then
    some (.error (.blockValidationError "invalid view"))
  else
    match get_current_leader st with
    | .error e => some (.error e)
    | .ok leader =>
      if source ≠ leader then some (.error (.blockValidationError "incorrect leader"))
      else if st.latest_block_hash ≠ proposal.previous_block_hash then
        some (.error (.blockValidationError "invalid block"))
      else
        match lookup_game st.db (match_key proposal.tx.white_player proposal.tx.black_player) with
        | none => none
        | some g =>
          if BlockBuilder.hashOf env ⟨proposal.view_n, proposal.previous_block_hash, proposal.tx⟩
              ≠ proposal.hash then
            some (.error (.blockValidationError "invalid block"))
          else
            match is_valid_tx env st proposal.tx with
            | none => none
            | some (.error e) => some (.error (.blockValidationError e.toMessage))
            | some (.ok _) =>
              if proposal.tx.game_state_hash = some (env.gameStateHash g) then some (.ok ())
              else some (.error (.blockValidationError "inequal game states"))

/-- `App::update_view_if_needed`, one tick of the one-second background
task in `main.rs` with `now = Utc::now().timestamp() as u64`: the `u64`
elapsed time wraps on underflow (release semantics); rotate when
`elapsed ≥ VIEW_N_ROT_INTERVAL` and the latest block hash is non-zero. -/
def update_view_if_needed (st : AppState) (now : Nat) : AppState :=
  let elapsed := u64sub now st.latest_timestamp
  if elapsed ≥ VIEW_N_ROT_INTERVAL ∧ st.latest_block_hash ≠ 0 then
    { st with view_n := st.view_n + 1, latest_timestamp := now }
  else st

/-- `handle_commitment` in `p2p.rs` (run when this node is the current
leader): when the block's view matches and more than `(2*PEERS)/3` votes
are recorded for its hash, attach a QC carrying the recorded vote set
(collected in the set's iteration order), publish the block on COMMIT
(returned as the middle component), increment `view_n`, and run
`commit_block`, whose error propagates.  Otherwise do nothing. -/
def handle_commitment (env : Env) (st : AppState) (c : Commit) :
    Option (AppState × Option Block × Except AppError Unit) :=
  match lookup_votes st.state_votes c.block.hash with
  | some votes =>
    if st.view_n = c.block.view_n ∧ votes.length > (2 * PEERS) / 3 then
      let b := { c.block with qc := some ⟨c.block.hash, votes⟩ }
      let st1 := { st with view_n := st.view_n + 1 }
      match commit_block env st1 b with
      | none => none
      | some (res, st2) => some (st2, some b, res)
    else some (st, none, .ok ())
  | none => some (st, none, .ok ())

/-- Lexicographic comparison of character lists (byte order), used to
state the spec's "sorted". -/
def charListLt : List Char → List Char → Bool
  | [], [] => false
  | [], _ :: _ => true
  | _ :: _, [] => false
  | c :: cs, d :: ds =>
    if c.toNat < d.toNat then true
    else if d.toNat < c.toNat then false
    else charListLt cs ds

def insSorted (s : String) : List String → List String
  | [] => [s]
  | t :: rest => if charListLt s.data t.data then s :: t :: rest else t :: insSorted s rest

/-- A sorted copy of a peer-identity list, written from the spec's words
("signature = sorted copy of state_votes[block.hash]") for comparison
with what `handle_commitment` actually collects. -/
def sortedCopySpec (l : List String) : List String :=
  l.foldr insSorted []

/-! ### Concrete fixtures used by witnesses and counterexamples -/

/-- A concrete instantiation of the external primitives. -/
def envT : Env :=
  { keccakBuilder := fun _ _ _ => 0
    gameStateHash := fun _ => "gs"
    sha256 := fun _ => List.replicate 32 0
    sigScalarsOk := fun _ => true
    pubkeyOk := fun _ => true
    verify := fun _ _ _ => true
    hexErrMsg := fun _ => "hex error"
    sigErrMsg := fun _ => "sig error"
    keyErrMsg := fun _ => "key error" }

/-- 128 hex zeros: decodes to a 64-byte signature. -/
def sig128 : String := String.mk (List.replicate 128 (Char.ofNat 48))

def txT : Transaction :=
  { white_player := "aa"
    black_player := "bb"
    action := [⟨1, 0⟩, ⟨3, 0⟩]
    signature := sig128
    pub_key := "aa"
    game_state_hash := none }

def txStamped : Transaction := { txT with game_state_hash := some "gs" }

def stT : AppState :=
  { db := [("aa:bb", GameState.new "aa" "bb")]
    state_votes := []
    latest_block_hash := 0
    latest_timestamp := 0
    view_n := 0
    connected_peers := ["L", "M", "N", "O"]
    local_peer_id := "L" }

def blockT : Block :=
  { view_n := 0
    previous_block_hash := 0
    tx := txT
    timestamp := 0
    hash := 0
    qc := none }

def blockStamped : Block := { blockT with tx := txStamped }

def stEmptyDb : AppState := { stT with db := [] }

def stVotes : AppState := { stT with state_votes := [(5, ["b", "a", "c"])] }

def commitC7 : Commit := { decision := true, block := { blockT with hash := 5 } }

def bPubC7 : Block := { blockT with hash := 5, qc := some ⟨5, ["b", "a", "c"]⟩ }

def stRot : AppState := { stT with latest_block_hash := 7 }

def stUnder : AppState := { stT with latest_block_hash := 7, latest_timestamp := 100 }

/-- The spec's description of a verifying transaction signature: the
hex-decoded 64-byte `(r, s)` signature and hex-decoded public key parse,
and secp256k1 verification succeeds over the sha256 digest of the
canonical JSON message for `action = [a0, a1]`. -/
def specSigVerifies (env : Env) (tx : Transaction) (a0 a1 : Position) : Bool :=
  match hexDecode tx.signature, hexDecode tx.pub_key with
  | some sb, some kb =>
    decide (sb.length = 64) && env.sigScalarsOk sb && env.pubkeyOk kb &&
      env.verify (env.sha256 (canonical_msg tx.white_player tx.black_player a0 a1)) sb kb
  | _, _ => false

/-! ### Helper lemmas -/

theorem u32toi32_small (n : Nat) (h : n < 2147483648) : u32toi32 n = n := by
  unfold u32toi32
  rw [Nat.mod_eq_of_lt (by omega)]
  simp [h]

theorem is_valid_qc_spec (st : AppState) (qc : QuorumCertificate) :
    is_valid_qc st qc = .ok () ↔
      ∃ votes, lookup_votes st.state_votes qc.block_hash = some votes ∧
        inter_count votes qc.signature > (2 * PEERS) / 3 := by
  unfold is_valid_qc
  constructor
  · intro h
    split at h
    · next votes hv =>
      split at h
      · exact ⟨votes, hv, by assumption⟩
      · exact absurd h (by simp)
    · exact absurd h (by simp)
  · rintro ⟨votes, hv, hc⟩
    simp [hv, hc]

theorem commit_block_view (env : Env) (st : AppState) (b : Block)
    (r : Except AppError Unit) (st2 : AppState)
    (h : commit_block env st b = some (r, st2)) : st2.view_n = st.view_n := by
  simp only [commit_block] at h
  repeat' split at h
  all_goals simp_all
  all_goals (obtain ⟨-, rfl⟩ := h; rfl)

/-! ### Claim theorems -/

/-- Claim C3: a block's hash is a pure function of exactly
`(view_n, previous_block_hash, tx)`: `BlockBuilder::build` stores the
keccak256 of the canonical JSON of those three fields only, so two
builds from equal `(view_n, previous_block_hash, tx)` yield equal
hashes regardless of the clock value stamped into the timestamp, and
the built block carries no QC. -/
theorem c3_block_hash_pure (env : Env) (v p : Nat) (tx : Transaction) (now1 now2 : Int) :
    (BlockBuilder.build env ⟨v, p, tx⟩ now1).hash = (BlockBuilder.build env ⟨v, p, tx⟩ now2).hash
      ∧ (BlockBuilder.build env ⟨v, p, tx⟩ now1).hash = env.keccakBuilder v p tx
      ∧ (BlockBuilder.build env ⟨v, p, tx⟩ now1).timestamp = now1
      ∧ (BlockBuilder.build env ⟨v, p, tx⟩ now1).qc = none :=
  ⟨rfl, rfl, rfl, rfl⟩

/-- Claim C5: one tick of the view-change task with clock `now`: when
`now - latest_timestamp ≥ VIEW_N_ROT_INTERVAL` and the latest block
hash is non-zero, `view_n` grows by exactly one and `latest_timestamp`
becomes `now`; otherwise — in particular whenever the latest block hash
is still the all-zero genesis hash — the state is unchanged. -/
theorem c5_view_change_tick (st : AppState) (now : Nat)
    (hnow : now < 18446744073709551616) (hle : st.latest_timestamp ≤ now) :
    (now - st.latest_timestamp ≥ VIEW_N_ROT_INTERVAL ∧ st.latest_block_hash ≠ 0 →
        update_view_if_needed st now =
          { st with view_n := st.view_n + 1, latest_timestamp := now })
      ∧ (now - st.latest_timestamp < VIEW_N_ROT_INTERVAL →
          update_view_if_needed st now = st)
      ∧ (st.latest_block_hash = 0 → update_view_if_needed st now = st) := by
  have he : u64sub now st.latest_timestamp = now - st.latest_timestamp := by
    unfold u64sub
    omega
  refine ⟨fun h => ?_, fun h => ?_, fun h => ?_⟩
  · simp only [update_view_if_needed, he]
    rw [if_pos h]
  · simp only [update_view_if_needed, he]
    rw [if_neg (fun hc => absurd hc.1 (by omega))]
  · simp only [update_view_if_needed, he]
    rw [if_neg (fun hc => hc.2 h)]

/-- Witness for C5 at a concrete state: timestamp 0, clock 11, non-zero
latest block hash — the view rotates from 0 to 1. -/
theorem c5_view_change_tick_witness :
    update_view_if_needed stRot 11 = { stRot with view_n := 1, latest_timestamp := 11 } :=
  (c5_view_change_tick stRot 11 (by decide) (by decide)).1 ⟨by decide, by decide⟩

/-- Claim C10: `commit_block` stores the committed block's
leader-supplied timestamp (as `u64`) into `latest_timestamp`; the
elapsed time in `update_view_if_needed` is the `u64` subtraction
`now - latest_timestamp`, which equals the mathematical difference only
under the precondition `latest_timestamp ≤ now`, and for a
future-stamped `latest_timestamp` it wraps to a huge value that
spuriously rotates the view (once a block has been committed). -/
theorem c10_timestamp_underflow :
    (∀ (env : Env) (st : AppState) (b : Block) (st2 : AppState),
        commit_block env st b = some (.ok (), st2) →
          st2.latest_timestamp = i64toU64 b.timestamp)
      ∧ (∀ (st : AppState) (now : Nat), st.latest_timestamp ≤ now →
          now < 18446744073709551616 →
            u64sub now st.latest_timestamp = now - st.latest_timestamp)
      ∧ (∀ (st : AppState) (now : Nat), now < st.latest_timestamp →
          st.latest_timestamp < 18446744073709551616 →
          st.latest_timestamp - now ≤ 18446744073709551606 →
          st.latest_block_hash ≠ 0 →
            update_view_if_needed st now =
              { st with view_n := st.view_n + 1, latest_timestamp := now }) := by
  refine ⟨?_, ?_, ?_⟩
  · intro env st b st2 h
    simp only [commit_block] at h
    repeat' split at h
    all_goals simp_all
    all_goals (obtain ⟨-, rfl⟩ := h; rfl)
  · intro st now h1 h2
    unfold u64sub
    omega
  · intro st now h1 h2 h3 h4
    have he : VIEW_N_ROT_INTERVAL ≤ u64sub now st.latest_timestamp := by
      unfold u64sub VIEW_N_ROT_INTERVAL
      omega
    simp only [update_view_if_needed]
    rw [if_pos ⟨he, h4⟩]

/-- Witness for C10 at a concrete state: `latest_timestamp = 100`
(a future-stamped block), clock `now = 99` — the wrapped elapsed time
spuriously rotates the view. -/
theorem c10_timestamp_underflow_witness :
    update_view_if_needed stUnder 99 = { stUnder with view_n := 1, latest_timestamp := 99 } :=
  c10_timestamp_underflow.2.2 stUnder 99 (by decide) (by decide) (by decide) (by decide)

/-- Claim C1: `commit_block` succeeds only when the block carries a QC
whose `signature` intersects this node's recorded votes for `b.hash` in
more than `(2 * PEERS) / 3 = 2` identities; with the QC absent, no
votes recorded for `b.hash`, or the intersection at or below the
threshold, it returns an error and leaves the state untouched. -/
theorem c1_commit_quorum_gate (env : Env) (st : AppState) (b : Block) :
    (∀ st2, commit_block env st b = some (.ok (), st2) →
        ∃ qc votes, b.qc = some qc ∧ lookup_votes st.state_votes b.hash = some votes ∧
          inter_count votes qc.signature > (2 * PEERS) / 3)
      ∧ (b.qc = none → commit_block env st b = some (.error .invalidQcError, st))
      ∧ (∀ qc, b.qc = some qc → lookup_votes st.state_votes b.hash = none →
          ∃ e, commit_block env st b = some (.error e, st))
      ∧ (∀ qc votes, b.qc = some qc → lookup_votes st.state_votes b.hash = some votes →
          inter_count votes qc.signature ≤ (2 * PEERS) / 3 →
          ∃ e, commit_block env st b = some (.error e, st)) := by
  refine ⟨?_, ?_, ?_, ?_⟩
  · intro st2 h
    simp only [commit_block] at h
    cases hqc : b.qc with
    | none => simp only [hqc] at h; simp at h
    | some qc =>
      simp only [hqc] at h
      cases hvq : is_valid_qc st qc with
      | error e => simp only [hvq] at h; simp at h
      | ok u =>
        simp only [hvq] at h
        rcases hlg : lookup_game st.db (match_key b.tx.white_player b.tx.black_player)
          with _ | g
        · simp only [hlg] at h; simp at h
        · simp only [hlg] at h
          by_cases hh :
              BlockBuilder.hashOf env ⟨b.view_n, b.previous_block_hash, b.tx⟩ ≠ b.hash
                ∨ qc.block_hash ≠ b.hash
          · rw [if_pos hh] at h; simp at h
          · push_neg at hh
            cases u
            obtain ⟨votes, hv, hcnt⟩ := (is_valid_qc_spec st qc).mp hvq
            rw [hh.2] at hv
            exact ⟨qc, votes, rfl, hv, hcnt⟩
  · intro h
    simp [commit_block, h]
  · intro qc hqc hnone
    rcases hq2 : lookup_votes st.state_votes qc.block_hash with _ | vs
    · exact ⟨.invalidQcError, by simp [commit_block, hqc, is_valid_qc, hq2]⟩
    · by_cases hc : inter_count vs qc.signature > (2 * PEERS) / 3
      · have hne : qc.block_hash ≠ b.hash := by
          intro he
          rw [he, hnone] at hq2
          cases hq2
        have hvq : is_valid_qc st qc = .ok () := (is_valid_qc_spec st qc).mpr ⟨vs, hq2, hc⟩
        rcases hlg : lookup_game st.db (match_key b.tx.white_player b.tx.black_player)
          with _ | g
        · exact ⟨.blockValidationError "no such game", by simp [commit_block, hqc, hvq, hlg]⟩
        · refine ⟨.blockValidationError "invalid block", ?_⟩
          simp only [commit_block, hqc, hvq, hlg]
          rw [if_pos (Or.inr hne)]
      · have hvq : is_valid_qc st qc = .error .invalidQcError := by
          simp only [is_valid_qc, hq2]
          rw [if_neg hc]
        exact ⟨.invalidQcError, by simp [commit_block, hqc, hvq]⟩
  · intro qc votes hqc hv hc
    by_cases heq : qc.block_hash = b.hash
    · have hq2 : lookup_votes st.state_votes qc.block_hash = some votes := by
        rw [heq]; exact hv
      have hvq : is_valid_qc st qc = .error .invalidQcError := by
        simp only [is_valid_qc, hq2]
        rw [if_neg (not_lt.mpr hc)]
      exact ⟨.invalidQcError, by simp [commit_block, hqc, hvq]⟩
    · rcases hq2 : lookup_votes st.state_votes qc.block_hash with _ | vs2
      · have hvq : is_valid_qc st qc = .error .invalidQcError := by
          simp only [is_valid_qc, hq2]
        exact ⟨.invalidQcError, by simp [commit_block, hqc, hvq]⟩
      · by_cases hc2 : inter_count vs2 qc.signature > (2 * PEERS) / 3
        · have hvq : is_valid_qc st qc = .ok () := (is_valid_qc_spec st qc).mpr ⟨vs2, hq2, hc2⟩
          rcases hlg : lookup_game st.db (match_key b.tx.white_player b.tx.black_player)
            with _ | g
          · exact ⟨.blockValidationError "no such game", by simp [commit_block, hqc, hvq, hlg]⟩
          · refine ⟨.blockValidationError "invalid block", ?_⟩
            simp only [commit_block, hqc, hvq, hlg]
            rw [if_pos (Or.inr heq)]
        · have hvq : is_valid_qc st qc = .error .invalidQcError := by
            simp only [is_valid_qc, hq2]
            rw [if_neg hc2]
          exact ⟨.invalidQcError, by simp [commit_block, hqc, hvq]⟩

/-- Witness for C1: a block without a QC is rejected with
`InvalidQcError` and the state is unchanged. -/
theorem c1_commit_quorum_gate_witness :
    commit_block envT stT blockT = some (.error .invalidQcError, stT) :=
  (c1_commit_quorum_gate envT stT blockT).2.1 rfl

/-- Claim C2: every `commit_block` call that returns an error leaves the
game database exactly as it was — validation failures return before any
mutation and a move-application failure restores the snapshot. -/
theorem c2_commit_rollback (env : Env) (st : AppState) (b : Block) (e : AppError)
    (st2 : AppState) (h : commit_block env st b = some (.error e, st2)) :
    st2.db = st.db := by
  simp only [commit_block] at h
  repeat' split at h
  all_goals simp_all
  all_goals (obtain ⟨-, rfl⟩ := h; rfl)

/-- Witness for C2 at a concrete failing commit (missing QC). -/
theorem c2_commit_rollback_witness : stT.db = stT.db :=
  c2_commit_rollback envT stT blockT .invalidQcError stT (by rfl)

/-- Claim C9: when a proposal passes the view, leader, and
previous-hash checks but its transaction names an absent match, the
hash-recomputation step of `approve_proposal` dereferences the missing
database entry with `unwrap` and panics (modelled as `none`) instead of
returning the `no such game` error that `is_valid_tx` produces on the
same transaction. -/
theorem c9_approve_missing_game_panics (env : Env) (st : AppState) (b : Block) (src : String)
    (hview : st.view_n % 4294967296 = b.view_n)
    (hleader : get_current_leader st = .ok src)
    (hprev : st.latest_block_hash = b.previous_block_hash)
    (hmiss : lookup_game st.db (match_key b.tx.white_player b.tx.black_player) = none) :
    approve_proposal env st b src = none
      ∧ is_valid_tx env st b.tx = some (.error (.invalidTransactionError "no such game")) := by
  constructor
  · simp only [approve_proposal, hview, hleader, hprev, hmiss]
    simp
  · simp only [is_valid_tx, hmiss]

/-- Witness for C9: an empty database with an otherwise acceptable
proposal makes `approve_proposal` panic. -/
theorem c9_approve_missing_game_panics_witness :
    approve_proposal envT stEmptyDb blockT "L" = none
      ∧ is_valid_tx envT stEmptyDb blockT.tx
          = some (.error (.invalidTransactionError "no such game")) :=
  c9_approve_missing_game_panics envT stEmptyDb blockT "L" rfl rfl rfl rfl

/-- Counterexample to claim C4 as stated: at this concrete input all
five listed conditions hold — matching view, source equal to the
current leader, matching previous hash, matching recomputed hash, and
`is_valid_tx` succeeding — yet `approve_proposal` returns an error,
because the transaction's `game_state_hash` is `None` and the code
additionally requires it to equal the keccak hash of the serialized
local game state. -/
theorem c4_accept_iff_cex :
    stT.view_n % 4294967296 = blockT.view_n
      ∧ get_current_leader stT = .ok "L"
      ∧ stT.latest_block_hash = blockT.previous_block_hash
      ∧ BlockBuilder.hashOf envT ⟨blockT.view_n, blockT.previous_block_hash, blockT.tx⟩
          = blockT.hash
      ∧ is_valid_tx envT stT blockT.tx = some (.ok ())
      ∧ approve_proposal envT stT blockT "L"
          = some (.error (.blockValidationError "inequal game states")) :=
  ⟨rfl, rfl, rfl, rfl, rfl, rfl⟩

/-- Claim C4 (amended): provided the transaction's match exists in the
database (otherwise the handler panics, cf. C9), `approve_proposal`
accepts exactly when all six conditions hold: matching view (the node's
`view_n` truncated to `u32`), source equal to the current leader,
matching previous block hash, matching recomputed hash, `is_valid_tx`
success, and the transaction's `game_state_hash` equal to the keccak
hash of the serialized local game state. -/
theorem c4_accept_iff_amended (env : Env) (st : AppState) (b : Block) (src : String)
    (g : GameState)
    (hg : lookup_game st.db (match_key b.tx.white_player b.tx.black_player) = some g) :
    approve_proposal env st b src = some (.ok ())
      ↔ (st.view_n % 4294967296 = b.view_n
          ∧ get_current_leader st = .ok src
          ∧ st.latest_block_hash = b.previous_block_hash
          ∧ BlockBuilder.hashOf env ⟨b.view_n, b.previous_block_hash, b.tx⟩ = b.hash
          ∧ is_valid_tx env st b.tx = some (.ok ())
          ∧ b.tx.game_state_hash = some (env.gameStateHash g)) := by
  constructor
  · intro h
    simp only [approve_proposal] at h
    by_cases h1 : st.view_n % 4294967296 ≠ b.view_n
    · rw [if_pos h1] at h; simp at h
    · rw [if_neg h1] at h
      cases hld : get_current_leader st with
      | error e => simp only [hld] at h; simp at h
      | ok leader =>
        simp only [hld] at h
        by_cases h2 : src ≠ leader
        · rw [if_pos h2] at h; simp at h
        · rw [if_neg h2] at h
          have h2' := not_ne_iff.mp h2
          subst h2'
          by_cases h3 : st.latest_block_hash ≠ b.previous_block_hash
          · rw [if_pos h3] at h; simp at h
          · rw [if_neg h3] at h
            simp only [hg] at h
            by_cases h4 :
                BlockBuilder.hashOf env ⟨b.view_n, b.previous_block_hash, b.tx⟩ ≠ b.hash
            · rw [if_pos h4] at h; simp at h
            · rw [if_neg h4] at h
              cases hiv : is_valid_tx env st b.tx with
              | none => simp only [hiv] at h; simp at h
              | some r =>
                simp only [hiv] at h
                cases r with
                | error e => simp at h
                | ok u =>
                  by_cases h6 : b.tx.game_state_hash = some (env.gameStateHash g)
                  · exact ⟨not_ne_iff.mp h1, rfl, not_ne_iff.mp h3, not_ne_iff.mp h4,
                      rfl, h6⟩
                  · rw [if_neg h6] at h
                    simp at h
  · rintro ⟨h1, h2, h3, h4, h5, h6⟩
    simp only [approve_proposal, h1, h2, h3, h4, h5, h6, hg]
    simp

/-- Witness for the amended C4: with the six conditions satisfied —
in particular a transaction stamped with the current game-state hash —
the proposal is accepted. -/
theorem c4_accept_iff_amended_witness :
    approve_proposal envT stT blockStamped "L" = some (.ok ()) :=
  (c4_accept_iff_amended envT stT blockStamped "L" (GameState.new "aa" "bb") rfl).mpr
    ⟨rfl, rfl, rfl, rfl, rfl, rfl⟩

/-- Claim C6: `validate_signature` canonicalizes the message as the
JSON object with field order `whitePlayer`, `blackPlayer`, `action`
(positions as `{"x":N,"y":N}` objects), hashes it with sha256, and
verifies the hex-decoded standard 64-byte secp256k1 `(r,s)` signature
over that digest with the hex-decoded public key; it succeeds exactly
when that verification succeeds, and `is_valid_tx` propagates its
failure verbatim once the game and chess checks have passed. -/
theorem c6_signature_scheme (env : Env) (tx : Transaction) (a0 a1 : Position)
    (h0 : tx.action.get? 0 = some a0) (h1 : tx.action.get? 1 = some a1) :
    (validate_signature env tx = some (.ok ()) ↔ specSigVerifies env tx a0 a1 = true)
      ∧ ((∃ e, validate_signature env tx = some (.error e))
          ↔ specSigVerifies env tx a0 a1 = false)
      ∧ (∀ (st : AppState) (game : GameState),
          lookup_game st.db (match_key tx.white_player tx.black_player) = some game →
          game.validate_move a0 a1 = some (.ok ()) →
          ∀ e, validate_signature env tx = some (.error e) →
            is_valid_tx env st tx = some (.error e))
      ∧ canonical_msg "ab" "cd" ⟨1, 0⟩ ⟨3, 0⟩ =
          "\x7b\"whitePlayer\":\"ab\",\"blackPlayer\":\"cd\",\"action\":[\x7b\"x\":1,\"y\":0\x7d,\x7b\"x\":3,\"y\":0\x7d]\x7d" := by
  have hA : validate_signature env tx = some (.ok ()) ↔ specSigVerifies env tx a0 a1 = true := by
    simp only [validate_signature, specSigVerifies, h0, h1]
    rcases hsd : hexDecode tx.signature with _ | sb
    · simp
    · rcases hkd : hexDecode tx.pub_key with _ | kb
      · by_cases hlen : sb.length = 64 ∧ env.sigScalarsOk sb = true
        · simp [hlen]
        · simp [hlen]
      · by_cases hlen : sb.length = 64 ∧ env.sigScalarsOk sb = true
        · by_cases hpk : env.pubkeyOk kb = true
          · by_cases hv : env.verify
                (env.sha256 (canonical_msg tx.white_player tx.black_player a0 a1)) sb kb = true
            · simp [hlen, hpk, hv, hlen.1, hlen.2]
            · simp [hlen, hpk, hv, hlen.1, hlen.2]
          · simp [hlen, hpk, hlen.1, hlen.2]
        · dsimp only
          rw [if_neg hlen]
          constructor
          · intro hcontra
            simp at hcontra
          · intro hb
            exfalso
            apply hlen
            simp only [Bool.and_eq_true, decide_eq_true_eq] at hb
            exact ⟨hb.1.1.1, hb.1.1.2⟩
  have htot : ∃ r, validate_signature env tx = some r := by
    simp only [validate_signature, h0, h1]
    exact ⟨_, rfl⟩
  have hB : (∃ e, validate_signature env tx = some (.error e))
      ↔ specSigVerifies env tx a0 a1 = false := by
    constructor
    · rintro ⟨e, he⟩
      cases hbool : specSigVerifies env tx a0 a1 with
      | false => rfl
      | true =>
        rw [hA.mpr hbool] at he
        simp at he
    · intro hfalse
      obtain ⟨r, hr⟩ := htot
      cases r with
      | error e => exact ⟨e, hr⟩
      | ok u =>
        cases u
        rw [hA.mp hr] at hfalse
        cases hfalse
  refine ⟨hA, hB, ?_, by decide⟩
  intro st game hg hmv e he
  have h0' : tx.action[0]? = some a0 := by
    rw [← List.get?_eq_getElem?]
    exact h0
  have h1' : tx.action[1]? = some a1 := by
    rw [← List.get?_eq_getElem?]
    exact h1
  simp [is_valid_tx, hg, h0', h1', hmv, he]

/-- Witness for C6: a concrete transaction whose signature and key
decode and verify under a concrete environment; `validate_signature`
accepts, and the canonical message has the claimed exact shape. -/
theorem c6_signature_scheme_witness :
    validate_signature envT txT = some (.ok ())
      ∧ canonical_msg "ab" "cd" ⟨1, 0⟩ ⟨3, 0⟩ =
          "\x7b\"whitePlayer\":\"ab\",\"blackPlayer\":\"cd\",\"action\":[\x7b\"x\":1,\"y\":0\x7d,\x7b\"x\":3,\"y\":0\x7d]\x7d" :=
  ⟨((c6_signature_scheme envT txT ⟨1, 0⟩ ⟨3, 0⟩ rfl rfl).1).mpr (by decide),
    (c6_signature_scheme envT txT ⟨1, 0⟩ ⟨3, 0⟩ rfl rfl).2.2.2⟩

/-- Counterexample to claim C7 as stated: at this concrete leader state
the trigger conditions hold (matching view, 3 > 2 recorded votes for
the block's hash), and the QC attached to the published block carries
the vote set in its iteration order `["b", "a", "c"]`, which is not the
sorted copy `["a", "b", "c"]` the claim prescribes — the code never
sorts the collected vote set. -/
theorem c7_commit_phase_cex :
    stVotes.view_n = commitC7.block.view_n
      ∧ lookup_votes stVotes.state_votes commitC7.block.hash = some ["b", "a", "c"]
      ∧ handle_commitment envT stVotes commitC7
          = some ({ stVotes with view_n := 1 }, some bPubC7,
              .error (.blockValidationError "invalid block"))
      ∧ bPubC7.qc = some ⟨commitC7.block.hash, ["b", "a", "c"]⟩
      ∧ sortedCopySpec ["b", "a", "c"] = ["a", "b", "c"]
      ∧ (["b", "a", "c"] : List String) ≠ ["a", "b", "c"] :=
  ⟨rfl, rfl, rfl, rfl, by decide, by decide⟩

/-- Claim C7 (amended): when the leader's recorded vote set for the
block's hash exceeds `(2 * PEERS) / 3` members and the block's view
matches the current view, `handle_commitment` attaches a QC whose
`block_hash` is the block's hash and whose `signature` is a copy of
`state_votes[block.hash]` in the vote set's iteration order (same
members, not necessarily sorted), publishes that block on the COMMIT
topic, increments `view_n` to `block.view_n + 1`, and runs the local
`commit_block` on it. -/
theorem c7_commit_phase_amended (env : Env) (st : AppState) (c : Commit)
    (votes : List String)
    (hv : lookup_votes st.state_votes c.block.hash = some votes)
    (hn : votes.length > (2 * PEERS) / 3)
    (hview : st.view_n = c.block.view_n) :
    handle_commitment env st c
        = (commit_block env { st with view_n := st.view_n + 1 }
              { c.block with qc := some ⟨c.block.hash, votes⟩ }).map
            (fun p => (p.2, some { c.block with qc := some ⟨c.block.hash, votes⟩ }, p.1))
      ∧ (∀ x, x ∈ (QuorumCertificate.mk c.block.hash votes).signature ↔ x ∈ votes)
      ∧ ({ st with view_n := st.view_n + 1 } : AppState).view_n = c.block.view_n + 1
      ∧ (∀ r st2, commit_block env { st with view_n := st.view_n + 1 }
            { c.block with qc := some ⟨c.block.hash, votes⟩ } = some (r, st2) →
            st2.view_n = c.block.view_n + 1) := by
  refine ⟨?_, fun x => Iff.rfl, by simp [hview], ?_⟩
  · simp only [handle_commitment, hv]
    rw [if_pos ⟨hview, hn⟩]
    cases hcb : commit_block env { st with view_n := st.view_n + 1 }
        { c.block with qc := some ⟨c.block.hash, votes⟩ } with
    | none => rfl
    | some p =>
      cases p
      rfl
  · intro r st2 h
    rw [commit_block_view env _ _ r st2 h]
    simp [hview]

/-- Witness for the amended C7 at the concrete leader state with three
recorded votes. -/
theorem c7_commit_phase_amended_witness :
    handle_commitment envT stVotes commitC7
        = (commit_block envT { stVotes with view_n := stVotes.view_n + 1 }
              { commitC7.block with qc := some ⟨commitC7.block.hash, ["b", "a", "c"]⟩ }).map
            (fun p =>
              (p.2, some { commitC7.block with
                  qc := some ⟨commitC7.block.hash, ["b", "a", "c"]⟩ }, p.1)) :=
  (c7_commit_phase_amended envT stVotes commitC7 ["b", "a", "c"] rfl (by decide) rfl).1

/-- Claim C8: on a freshly created game the white pawn double move
`(1,0) → (3,0)` validates, and applying it empties cell `(1,0)`, puts a
white pawn in cell `(3,0)`, and sets the turn to BLACK (`1`); in
general, a pawn move with `dy = 0` and `dx = 2 · direction` is accepted
by `validate_pawn_move` exactly when the pawn stands on its initial row
and both the destination and the intermediate square are empty. -/
theorem c8_pawn_double_move (p : Piece) (fromL toL : Location) (board : Board)
    (hfx : fromL.x < 8) :
    ((GameState.new "A" "B").validate_move ⟨1, 0⟩ ⟨3, 0⟩ = some (.ok ())
        ∧ ((GameState.new "A" "B").apply_move ⟨1, 0⟩ ⟨3, 0⟩).map
              (Except.map fun g2 =>
                (g2.board.map fun bd => (bd.get_piece_at 1 0, bd.get_piece_at 3 0), g2.turn))
            = some (.ok (some (some none, some (some ⟨0, "P"⟩)), 1)))
      ∧ (p.validate_pawn_move fromL toL (2 * (if p.color = 0 then (1 : Int) else -1)) 0 board
              = some true
          ↔ ((fromL.x : Int) = (if p.color = 0 then (1 : Int) else 6)
              ∧ board.is_empty toL.x toL.y = some true
              ∧ board.is_empty
                  (i32toU32 (wrapI32 ((fromL.x : Int) + (if p.color = 0 then 1 else -1))))
                  fromL.y = some true)) := by
  refine ⟨⟨rfl, rfl⟩, ?_⟩
  have hcast : u32toi32 fromL.x = (fromL.x : Int) := u32toi32_small fromL.x (by omega)
  by_cases hc : p.color = 0
  · simp only [Piece.validate_pawn_move, hc, if_pos, if_true, hcast]
    norm_num
    by_cases hr : (fromL.x : Int) = 1
    · have hr2 : fromL.x = 1 := by omega
      simp only [hr, hr2, and_true, true_and]
      norm_num
      cases he : board.is_empty toL.x toL.y with
      | none => simp
      | some bv =>
        cases bv with
        | false => simp
        | true => simp
    · have hr2 : ¬fromL.x = 1 := by omega
      simp [hr, hr2]
  · simp only [Piece.validate_pawn_move, hc, if_neg hc, hcast]
    norm_num
    by_cases hr : (fromL.x : Int) = 6
    · simp only [hr, and_true, true_and]
      norm_num
      cases he : board.is_empty toL.x toL.y with
      | none => simp
      | some bv =>
        cases bv with
        | false => simp
        | true => simp
    · simp [hr]

/-- Witness for C8: the white pawn double move from `(1,0)` on the
initial board, via the general criterion. -/
theorem c8_pawn_double_move_witness :
    Piece.validate_pawn_move ⟨0, "P"⟩ ⟨1, 0, some ⟨0, "P"⟩⟩ ⟨3, 0, none⟩
        (2 * (if (0 : Int) = 0 then (1 : Int) else -1)) 0 Board.new = some true :=
  ((c8_pawn_double_move ⟨0, "P"⟩ ⟨1, 0, some ⟨0, "P"⟩⟩ ⟨3, 0, none⟩ Board.new
      (by decide)).2).mpr ⟨by decide, by decide, by decide⟩

end DistributedChess
